import Mathlib

/-!
Shallow embedding of the frontend game-state rendering logic of
`static/js/game.js` (class `PokerGame`).

The DOM is modelled by explicit view structures; every `textContent` /
`innerHTML` assignment performed by a method becomes a field update of a
view record.  HTML chunks that the JavaScript builds by string
concatenation inside a loop are modelled as lists of structured view
items (one item per loop iteration); fixed markup such as the hidden
card back `<div class="card small hidden"></div>` becomes a dedicated
constructor.  JavaScript numbers that are integers in the interface
(chips, pot, amounts, counts) are modelled as `Int`; the analysis
quantities (win_rate, pot_odds, ev, probability), which flow into
`Number.prototype.toFixed`, are modelled as `ℚ`, and a formatted number
is kept symbolic as a `Txt.toFixed` node (value and digit count), so no
floating-point string formatting has to be axiomatised.

JavaScript truthiness is modelled explicitly where the code relies on
it: a possibly-absent field is an `Option`, and a string test
`if (x)` becomes `jsTruthyStr x` (false for `none` and for the empty
string).  An uncaught `TypeError` (reading a property of `undefined`)
is modelled by the `Bool` component of `updateUI`'s result: `true`
means the update threw after performing the updates made so far.
-/

namespace Poker

/-- Wire form of a card: `{rank, suit}` with display strings. -/
structure Card where
  rank : String
  suit : String
deriving DecidableEq

/-- A `players` entry of the state document. -/
structure Player where
  name : String
  chips : Int
  cards : Option (List Card)
  bet : Int
  current_bet : Int
  is_human : Bool
  is_dealer : Bool
  is_current : Bool
  is_active : Bool
  is_all_in : Bool
  last_action : Option String
deriving DecidableEq

/-- An `available_actions` entry `{action, amount}`. -/
structure ActionOpt where
  action : String
  amount : Int
deriving DecidableEq

/-- An `outs` entry `{name, count, probability}` of the analysis. -/
structure OutEntry where
  name : String
  count : Int
  probability : ℚ
deriving DecidableEq

/-- The `analysis` object (EquitySnapshot wire form). -/
structure Analysis where
  win_rate : ℚ
  pot_odds : ℚ
  ev : ℚ
  outs : Option (List OutEntry)
deriving DecidableEq

/-- The `advice` object `{action, reasoning, teaching_points}`. -/
structure Advice where
  action : String
  reasoning : String
  teaching_points : Option (List String)
deriving DecidableEq

/-- A `hands` entry of `hand_result`. -/
structure RevealedHand where
  name : String
  cards : Option (List Card)
  hand : String
deriving DecidableEq

/-- The `hand_result` object `{winners, pot, hands}`. -/
structure HandResult where
  winners : List String
  pot : Int
  hands : Option (List RevealedHand)
deriving DecidableEq

/-- The state document returned by the server after every action. -/
structure StateDoc where
  error : Option String
  hand_number : Int
  stage : String
  pot : Option Int
  community_cards : List Card
  players : List Player
  current_hand : Option String
  available_actions : List ActionOpt
  analysis : Option Analysis
  advice : Option Advice
  messages : Option (List String)
  hand_result : Option HandResult
  is_game_over : Bool
deriving DecidableEq

/-- JavaScript truthiness of a possibly-absent string field:
`undefined`/`null` and the empty string are falsy. -/
def jsTruthyStr : Option String → Bool
  | none => false
  | some s => !(s == "")

/-- Embedding of `String.prototype.includes`: substring containment. -/
def jsIncludes (s sub : String) : Bool :=
  decide (List.IsInfix sub.data s.data)

/-- One of the five community-card slots rendered by
`renderCommunityCards` (and, reusing the same markup, a big player
card): a face card `<div class="card face [red]">` with rank and suit,
or the placeholder `<div class="card placeholder"></div>`. -/
inductive SlotView where
  | face (rank suit : String) (red : Bool)
  | placeholder
deriving DecidableEq

/-- One small opponent card rendered by `renderSmallCards`: the hidden
back `<div class="card small hidden"></div>`, or a face-up small card
`<div class="card small face [red]">` with rank and suit. -/
inductive SmallCardView where
  | hidden
  | face (rank suit : String) (red : Bool)
deriving DecidableEq

/-- A piece of text content whose numeric parts come from
`Number.prototype.toFixed`; `Txt.toFixed q d` stands for the decimal
rendering of `q` with `d` digits after the point. -/
inductive Txt where
  | lit (s : String)
  | toFixed (q : ℚ) (digits : Nat)
  | cat (a b : Txt)
deriving DecidableEq

/-- Lookup table of `translateStage` (`const stages = {...}`). -/
def stages : List (String × String) :=
  [("WAITING", "等待中"),
   ("PRE_FLOP", "翻牌前"),
   ("FLOP", "翻牌"),
   ("TURN", "轉牌"),
   ("RIVER", "河牌"),
   ("SHOWDOWN", "攤牌"),
   ("FINISHED", "結束")]

/-- Property names found on `Object.prototype`, which a property read
on an object literal reaches through the prototype chain when the key
is not an own property: the standard members plus the Annex B legacy
accessors.  Every one of these values (a function, or `Object.prototype`
itself for the `__proto__` getter) is truthy. -/
def objectProtoKeys : List String :=
  ["constructor", "hasOwnProperty", "isPrototypeOf", "propertyIsEnumerable",
   "toLocaleString", "toString", "valueOf", "__proto__",
   "__defineGetter__", "__defineSetter__", "__lookupGetter__", "__lookupSetter__"]

/-- A JavaScript value returned by `translateStage`: a string, or the
truthy non-string member named `name` inherited from
`Object.prototype`. -/
inductive JsRet where
  | str (s : String)
  | obj (name : String)
deriving DecidableEq

/-- Embedding of `translateStage(stage)`: `stages[stage] || stage`.
The property read consults the prototype chain: an own key of the
table yields its (nonempty, hence truthy) label; otherwise a key of
`Object.prototype` yields the inherited truthy member, which the `||`
passes through; only for the remaining strings is the read `undefined`
and the `||` fallback returns the input unchanged. -/
def translateStage (stage : String) : JsRet :=
  match stages.lookup stage with
  | some label => JsRet.str label
  | none =>
      if stage ∈ objectProtoKeys then JsRet.obj stage
      else JsRet.str stage

/-- Embedding of `renderCommunityCards(cards)`: five slots; slot `i` is a face card
for `cards[i]` when `i < cards.length` (red iff suit is ♥ or ♦),
otherwise the placeholder. -/
def renderCommunityCards (cards : List Card) : List SlotView :=
  (List.range 5).map fun i =>
    if h : i < cards.length then
      let card := cards.get ⟨i, h⟩
      SlotView.face card.rank card.suit (card.suit == "♥" || card.suit == "♦")
    else
      SlotView.placeholder

/-- Embedding of `renderSmallCards(cards, folded)`: two hidden backs when the cards
field is absent (`!cards`) or `folded` holds; otherwise one face-up
small card per entry (note: an empty present list renders nothing, as
an empty array is truthy in JavaScript). -/
def renderSmallCards (cards : Option (List Card)) (folded : Bool) : List SmallCardView :=
  if cards.isNone || folded then
    [SmallCardView.hidden, SmallCardView.hidden]
  else
    (cards.getD []).map fun card =>
      SmallCardView.face card.rank card.suit (card.suit == "♥" || card.suit == "♦")

/-- Embedding of `renderPlayerCards(cards)`: empty when the field is absent or the
list is empty, otherwise one big face card per entry. -/
def renderPlayerCards (cards : Option (List Card)) : List SlotView :=
  match cards with
  | none => []
  | some cs =>
      if cs.isEmpty then []
      else cs.map fun card =>
        SlotView.face card.rank card.suit (card.suit == "♥" || card.suit == "♦")

/-- The position class assigned to opponent `i` of `n` by
`renderOpponents`'s layout `if` chain (default `pos-top`). -/
def posClassFor (n i : Nat) : String :=
  if n == 3 then
    (if i == 0 then "pos-left" else if i == 1 then "pos-right" else "pos-top")
  else if n == 4 then
    (if i == 0 then "pos-left" else if i == 1 then "pos-top"
     else if i == 2 then "pos-right" else "pos-top")
  else if n == 5 then
    (if i == 0 then "pos-left" else if i == 1 then "pos-top-left"
     else if i == 2 then "pos-top-right" else if i == 3 then "pos-right" else "pos-top")
  else "pos-top"

/-- Translation table of `renderOpponents` for last actions
(`const actionMap = {...}`). -/
def actionMap : List (String × String) :=
  [("fold", "棄牌"), ("check", "過牌"), ("call", "跟注"),
   ("bet", "下注"), ("raise", "加注"), ("all_in", "ALL IN")]

/-- One opponent box as rendered by `renderOpponents`' loop body. -/
structure OpponentView where
  classes : List String
  actionText : String
  name : String
  hasDealerChip : Bool
  chipsText : String
  betText : Option String
  cardsView : List SmallCardView
  foldedStatus : Bool
  allinStatus : Bool
deriving DecidableEq

/-- The loop body of `renderOpponents` for opponent `i` of `n`. -/
def oppView (n i : Nat) (p : Player) : OpponentView :=
  let classes :=
    ["opponent", posClassFor n i]
      ++ (if p.is_current then ["current"] else [])
      ++ (if p.is_current ∧ p.bet > 0 then ["acting"] else [])
      ++ (if !p.is_active then ["folded"] else [])
  let actionText :=
    if jsTruthyStr p.last_action ∧ p.last_action.getD "" ≠ "fold" then
      let la := p.last_action.getD ""
      let base := (actionMap.lookup la).getD la
      if ["bet", "call", "raise", "all_in"].contains la ∧ p.current_bet > 0 then
        base ++ " $" ++ toString p.current_bet
      else base
    else if p.bet > 0 ∧ p.is_current then
      "下注 $" ++ toString p.bet
    else ""
  { classes := classes
    actionText := actionText
    name := p.name
    hasDealerChip := p.is_dealer
    chipsText := "$" ++ toString p.chips
    betText := if p.bet > 0 then some ("下注: $" ++ toString p.bet) else none
    cardsView := renderSmallCards p.cards (!p.is_active)
    foldedStatus := !p.is_active
    allinStatus := p.is_all_in }

/-- The indexed `for` loop of `renderOpponents`, one view per opponent. -/
def renderOppItems (n : Nat) : Nat → List Player → List OpponentView
  | _, [] => []
  | i, p :: rest => oppView n i p :: renderOppItems n (i + 1) rest

/-- The full output of `renderOpponents`: the container's class string
and the list of opponent boxes. -/
structure OpponentsView where
  layout : String
  items : List OpponentView
deriving DecidableEq

/-- Embedding of `renderOpponents(opponents)`. -/
def renderOpponents (opps : List Player) : OpponentsView :=
  { layout := "opponents layout-" ++ toString opps.length
    items := renderOppItems opps.length 0 opps }

/-- The DOM state of one action button: its `disabled` property and its
visible text. -/
structure ButtonView where
  disabled : Bool
  label : String
deriving DecidableEq

/-- The raise slider's `min`, `value` and `max` attributes. -/
structure SliderView where
  min : Int
  value : Int
  max : Int
deriving DecidableEq

/-- The part of the DOM touched by `updateActions`: the six action
buttons (indexed by their `data-action` name), the raise slider, and
the `#raise-amount` text. -/
structure ActionsUI where
  buttons : String → ButtonView
  slider : SliderView
  raiseAmountText : String

/-- The list `const allActions = [...]` in `updateActions`. -/
def allActions : List String :=
  ["fold", "check", "bet", "call", "raise", "all_in"]

/-- One iteration of `updateActions`' loop for button `a`:
`disabled` becomes true iff no available action has that name, and the
label is rewritten (to show the amount) only for an available `call` or
`bet`. -/
def buttonAfter (acts : List ActionOpt) (a : String) (prev : ButtonView) : ButtonView :=
  let available := acts.find? fun x => x.action == a
  { disabled := available.isNone
    label :=
      if a == "call" then
        match available with
        | some e => "跟注 $" ++ toString e.amount
        | none => prev.label
      else if a == "bet" then
        match available with
        | some e => "下注 $" ++ toString e.amount
        | none => prev.label
      else prev.label }

/-- Embedding of `updateActions(actions)`: per-button update, then slider range setup
from the first `raise` entry, else the first `bet` entry (`raiseAction
|| betAction`); when neither exists the slider and amount text are left
alone.  The slider's `max` attribute is never assigned. -/
def updateActions (acts : List ActionOpt) (prev : ActionsUI) : ActionsUI :=
  let buttons := fun a =>
    if allActions.contains a then buttonAfter acts a (prev.buttons a)
    else prev.buttons a
  let sliderAction :=
    match acts.find? fun x => x.action == "raise" with
    | some r => some r
    | none => acts.find? fun x => x.action == "bet"
  { buttons := buttons
    slider :=
      match sliderAction with
      | some sa => { min := sa.amount, value := sa.amount, max := prev.slider.max }
      | none => prev.slider
    raiseAmountText :=
      match sliderAction with
      | some sa => toString sa.amount
      | none => prev.raiseAmountText }

/-- One row of the outs section: `${out.name}` and
`${out.count} outs (${(out.probability*100).toFixed(0)}%)`. -/
structure OutRowView where
  name : String
  count : Int
  probPct : Txt
deriving DecidableEq

/-- The analysis panel: win-rate, pot-odds and EV texts, the EV
element's class, whether the outs header (`聽牌:`) is present, and the
outs rows. -/
structure AnalysisView where
  winRate : Txt
  potOdds : Txt
  evText : Txt
  evClass : String
  outsHeader : Bool
  outsRows : List OutRowView
deriving DecidableEq

/-- The `for (const out of analysis.outs)` loop building the outs rows. -/
def outsRowsOf : List OutEntry → List OutRowView
  | [] => []
  | o :: rest =>
      { name := o.name, count := o.count
        probPct := Txt.toFixed (o.probability * 100) 0 } :: outsRowsOf rest

/-- Embedding of `updateAnalysis(analysis)`: with no analysis the three values show
`--` and the outs section is emptied (the EV class is not touched);
otherwise win rate and pot odds are `(x*100).toFixed(1)%`, the EV is
`+$ev.toFixed(0)` when `ev >= 0` and `-$abs(ev).toFixed(0)` otherwise,
and the outs section gets a header plus one row per out when the outs
list is present and nonempty. -/
def updateAnalysis (prev : AnalysisView) : Option Analysis → AnalysisView
  | none =>
      { prev with
        winRate := Txt.lit "--"
        potOdds := Txt.lit "--"
        evText := Txt.lit "--"
        outsHeader := false
        outsRows := [] }
  | some a =>
      let hdrRows : Bool × List OutRowView :=
        match a.outs with
        | some outs => if outs.length > 0 then (true, outsRowsOf outs) else (false, [])
        | none => (false, [])
      { winRate := Txt.cat (Txt.toFixed (a.win_rate * 100) 1) (Txt.lit "%")
        potOdds := Txt.cat (Txt.toFixed (a.pot_odds * 100) 1) (Txt.lit "%")
        evText :=
          if 0 ≤ a.ev then Txt.cat (Txt.lit "+$") (Txt.toFixed a.ev 0)
          else Txt.cat (Txt.lit "-$") (Txt.toFixed |a.ev| 0)
        evClass := if 0 ≤ a.ev then "value positive" else "value negative"
        outsHeader := hdrRows.1
        outsRows := hdrRows.2 }

/-- The advice panel: action label, its class, reasoning text, and the
teaching-point list items. -/
structure AdviceView where
  actionText : String
  actionClass : String
  reason : String
  points : List String
deriving DecidableEq

/-- Label table of `updateAdvice` (`const actionText = {...}`). -/
def adviceLabelMap : List (String × String) :=
  [("strong_bet", "🔥 強烈建議加注"),
   ("bet", "↑ 建議加注"),
   ("call", "→ 建議跟注"),
   ("check_call", "→ 過牌/跟注"),
   ("check_fold", "↓ 過牌/棄牌"),
   ("fold", "✕ 建議棄牌")]

/-- The `for (const point of advice.teaching_points || [])` loop. -/
def pointsOf : List String → List String
  | [] => []
  | p :: rest => p :: pointsOf rest

/-- Embedding of `updateAdvice(advice)`: absent advice resets the panel to the
waiting placeholder; otherwise the action label comes from the table
(falling back to the raw action name), the class is
`advice-action ${action}`, the reasoning is shown verbatim, and one
list item is rendered per teaching point. -/
def updateAdvice (advice : Option Advice) (_prev : AdviceView) : AdviceView :=
  match advice with
  | none =>
      { actionText := "等待行動..."
        actionClass := "advice-action"
        reason := ""
        points := [] }
  | some adv =>
      { actionText := (adviceLabelMap.lookup adv.action).getD adv.action
        actionClass := "advice-action " ++ adv.action
        reason := adv.reasoning
        points := pointsOf (adv.teaching_points.getD []) }

/-- One revealed hand in the result modal. -/
structure RevealView where
  name : String
  cardsView : List SmallCardView
  handType : String
deriving DecidableEq

/-- Everything of the page `updateUI` and its helpers can touch. -/
structure UIState where
  handNum : String
  stageText : JsRet
  potText : String
  community : List SlotView
  opponentsLayout : String
  opponents : List OpponentView
  playerCards : List SlotView
  playerChips : String
  currentHand : String
  actionsUI : ActionsUI
  analysisView : AnalysisView
  adviceView : AdviceView
  messages : List String
  resultShown : Bool
  resultTitle : String
  winnerInfo : String
  handsReveal : List RevealView
  gameoverShown : Bool
  gameoverMsg : String
  alerted : Bool
  reloaded : Bool

/-- Embedding of `showHandResult(result)`: result-modal title, winner line, revealed
hands (small cards, `folded` defaulting to false), then the modal is
shown. -/
def showHandResult (result : HandResult) (u : UIState) : UIState :=
  { u with
    resultTitle := if result.winners.contains "玩家" then "🎉 你贏了！" else "本局結束"
    winnerInfo :=
      String.intercalate ", " result.winners ++ " 贏得 $" ++ toString result.pot
    handsReveal :=
      (result.hands.getD []).map fun h =>
        { name := h.name
          cardsView := renderSmallCards h.cards false
          handType := h.hand }
    resultShown := true }

/-- Embedding of `showGameOver(chips)`: pick the message by `chips <= 0` and show the
game-over modal. -/
def showGameOver (chips : Int) (u : UIState) : UIState :=
  { u with
    gameoverMsg :=
      if chips ≤ 0 then "你的籌碼已用完！繼續練習，你一定會進步的！"
      else "🎉 恭喜！你擊敗了所有對手！"
    gameoverShown := true }

/-- The straight-line display section of `updateUI` (lines after the
error check up to and including the `hand_result` modal): basic info,
pot, community cards, opponents, the human player's cards and chips,
current hand, actions, analysis, advice, messages. -/
def renderBody (prev : UIState) (s : StateDoc) : UIState :=
  let u1 := { prev with
              handNum := toString s.hand_number
              stageText := translateStage s.stage }
  let potValue : Int := s.pot.getD 0
  let u2 := { u1 with potText := "$" ++ toString potValue }
  let u3 := { u2 with community := renderCommunityCards s.community_cards }
  let oppOut := renderOpponents (s.players.filter fun p => !p.is_human)
  let u4 := { u3 with opponentsLayout := oppOut.layout, opponents := oppOut.items }
  let human := s.players.find? fun p => p.is_human
  let u5 :=
    match human with
    | some h =>
        { u4 with
          playerCards := renderPlayerCards h.cards
          playerChips := "$" ++ toString h.chips }
    | none => u4
  let u6 := { u5 with currentHand := s.current_hand.getD "" }
  let u7 := { u6 with actionsUI := updateActions s.available_actions u6.actionsUI }
  let u8 := { u7 with analysisView := updateAnalysis u7.analysisView s.analysis }
  let u9 := { u8 with adviceView := updateAdvice s.advice u8.adviceView }
  let u10 := { u9 with messages := s.messages.getD [] }
  match s.hand_result with
  | some r => showHandResult r u10
  | none => u10

/-- Embedding of `updateUI(state)`, the top-level renderer.  A falsy `state` returns
at once; a truthy `error` field logs, possibly alerts and reloads, and
returns before any display update; otherwise the display section runs
and then the `is_game_over` modal is shown.  The `Bool` of the result
is `true` exactly when the JavaScript would throw an uncaught
`TypeError` (reading `human.chips` with no `is_human` player while
`is_game_over` holds); the `UIState` holds every DOM update performed
up to that point.  The source computes `human` once before the
game-over check; the equivalent pure `find?` is recomputed here. -/
def updateUI (prev : UIState) (state : Option StateDoc) : UIState × Bool :=
  match state with
  | none => (prev, false)
  | some s =>
      if jsTruthyStr s.error then
        let e := s.error.getD ""
        ({ prev with
           alerted := jsIncludes e "No active game"
           reloaded := jsIncludes e "No active game" }, false)
      else
        let u11 := renderBody prev s
        if s.is_game_over then
          match s.players.find? fun p => p.is_human with
          | some h => (showGameOver h.chips u11, false)
          | none => (u11, true)
        else (u11, false)

/-! ### Concrete fixtures for witnesses and counterexamples -/

/-- A blank button, for initial UI states in concrete runs. -/
def btnInit : ButtonView := { disabled := false, label := "" }

/-- Initial action area for concrete runs. -/
def actionsInit : ActionsUI :=
  { buttons := fun _ => btnInit, slider := { min := 0, value := 0, max := 0 }
    raiseAmountText := "" }

/-- Initial analysis panel for concrete runs. -/
def analysisInit : AnalysisView :=
  { winRate := Txt.lit "", potOdds := Txt.lit "", evText := Txt.lit ""
    evClass := "value", outsHeader := false, outsRows := [] }

/-- Initial advice panel for concrete runs. -/
def adviceInit : AdviceView :=
  { actionText := "", actionClass := "advice-action", reason := "", points := [] }

/-- A previously rendered page, used as the prior DOM state in concrete
runs (the pot deliberately shows `$99` so changes are observable). -/
def uiInit : UIState :=
  { handNum := "", stageText := JsRet.str "", potText := "$99", community := []
    opponentsLayout := "", opponents := [], playerCards := [], playerChips := ""
    currentHand := "", actionsUI := actionsInit, analysisView := analysisInit
    adviceView := adviceInit, messages := [], resultShown := false
    resultTitle := "", winnerInfo := "", handsReveal := [], gameoverShown := false
    gameoverMsg := "", alerted := false, reloaded := false }

/-- A minimal error-free state document; concrete runs override fields. -/
def stBase : StateDoc :=
  { error := none, hand_number := 1, stage := "FLOP", pot := some 7
    community_cards := [], players := [], current_hand := none
    available_actions := [], analysis := none, advice := none
    messages := none, hand_result := none, is_game_over := false }

/-! ### Helper lemmas -/

/-- The test `(s == "♥" || s == "♦")` computes the predicate
`s = "♥" ∨ s = "♦"`. -/
theorem redFlag_eq (s : String) :
    (s == "♥" || s == "♦") = decide (s = "♥" ∨ s = "♦") := by
  by_cases h1 : s = "♥" <;> by_cases h2 : s = "♦" <;> simp [h1, h2]

/-- An association-list lookup misses exactly outside its key list. -/
theorem lookup_eq_none_of_not_mem {α β : Type} [BEq α] [LawfulBEq α]
    (a : α) (l : List (α × β)) (h : a ∉ l.map Prod.fst) : l.lookup a = none := by
  induction l with
  | nil => rfl
  | cons kv rest ih =>
      obtain ⟨k, v⟩ := kv
      have hk : ¬a = k := by simp at h; exact fun hak => h.1 hak
      have hb : (a == k) = false := beq_eq_false_iff_ne.mpr hk
      have hr : a ∉ rest.map Prod.fst := by simp at h ⊢; exact h.2
      simp [List.lookup_cons, hb, ih hr]

/-- The loop `renderOppItems` preserves length. -/
theorem renderOppItems_length (n k : Nat) (l : List Player) :
    (renderOppItems n k l).length = l.length := by
  induction l generalizing k with
  | nil => rfl
  | cons p rest ih => simp [renderOppItems, ih]

/-- Element `i` of `renderOppItems` is the loop body applied to element
`i` of the input, at loop index `k + i`. -/
theorem renderOppItems_getElem? (n : Nat) :
    ∀ (k : Nat) (l : List Player) (i : Nat),
      (renderOppItems n k l)[i]? = (l[i]?).map fun p => oppView n (k + i) p := by
  intro k l
  induction l generalizing k with
  | nil => intro i; simp [renderOppItems]
  | cons p rest ih =>
      intro i
      cases i with
      | zero => simp [renderOppItems]
      | succ j =>
          have harith : k + 1 + j = k + (j + 1) := by omega
          simp [renderOppItems, List.getElem?_cons_succ, ih (k + 1) j, harith]

/-- The outs loop is a map over the outs list. -/
theorem outsRowsOf_eq_map (l : List OutEntry) :
    outsRowsOf l = l.map fun o =>
      OutRowView.mk o.name o.count (Txt.toFixed (o.probability * 100) 0) := by
  induction l with
  | nil => rfl
  | cons o rest ih => simp [outsRowsOf, ih]

/-- The teaching-point loop renders the list unchanged, in order. -/
theorem pointsOf_eq (l : List String) : pointsOf l = l := by
  induction l with
  | nil => rfl
  | cons p rest ih => simp [pointsOf, ih]

/-- Searching the action name with `find?` misses exactly when the name is not among
the actions. -/
theorem find?_action_isNone (acts : List ActionOpt) (a : String) :
    (acts.find? fun x => x.action == a).isNone
      = !((acts.map ActionOpt.action).contains a) := by
  induction acts with
  | nil => rfl
  | cons x rest ih =>
      simp only [List.find?_cons, List.map_cons, List.contains_cons]
      by_cases hx : x.action = a
      · have hb : (x.action == a) = true := beq_iff_eq.mpr hx
        have hb' : (a == x.action) = true := beq_iff_eq.mpr hx.symm
        rw [hb, hb']
        simp
      · have hb : (x.action == a) = false := beq_eq_false_iff_ne.mpr hx
        have hb' : (a == x.action) = false :=
          beq_eq_false_iff_ne.mpr fun hax => hx hax.symm
        rw [hb, hb']
        simp [ih]

/-! ### Claims -/

/-- C5 (amended): `translateStage` is total on strings and returns a
dedicated display label exactly for the stage-name keys of its table
(WAITING, PRE_FLOP, FLOP, TURN, RIVER, SHOWDOWN, FINISHED); every other
input string is returned unchanged except the property names inherited
from `Object.prototype`, for which the object-literal read finds the
inherited truthy member and the function returns that member instead of
the input. -/
theorem claim5_translate_stage_total :
    (∀ s : String, translateStage s ≠ JsRet.str s ↔
        s ∈ stages.map Prod.fst ∨ s ∈ objectProtoKeys) ∧
    (∀ s ∈ objectProtoKeys, translateStage s = JsRet.obj s) ∧
    translateStage "WAITING" = JsRet.str "等待中" ∧
    translateStage "PRE_FLOP" = JsRet.str "翻牌前" ∧
    translateStage "FLOP" = JsRet.str "翻牌" ∧
    translateStage "TURN" = JsRet.str "轉牌" ∧
    translateStage "RIVER" = JsRet.str "河牌" ∧
    translateStage "SHOWDOWN" = JsRet.str "攤牌" ∧
    translateStage "FINISHED" = JsRet.str "結束" := by
  refine ⟨?_, by decide, by decide, by decide, by decide, by decide, by decide,
    by decide, by decide⟩
  intro s
  by_cases hk : s ∈ stages.map Prod.fst
  · simp only [stages, List.map_cons, List.map_nil, List.mem_cons] at hk
    rcases hk with h | h | h | h | h | h | h | h <;> first | subst h; decide | simp at h
  · by_cases hp : s ∈ objectProtoKeys
    · simp only [objectProtoKeys, List.mem_cons] at hp
      rcases hp with h | h | h | h | h | h | h | h | h | h | h | h | h <;>
        first | subst h; decide | simp at h
    · have hl : stages.lookup s = none := lookup_eq_none_of_not_mem s stages hk
      have hid : translateStage s = JsRet.str s := by
        simp [translateStage, hl, hp]
      simp [hid, hk, hp]

/-- Counterexample to C5 as stated: `toString` is not a stage name, yet
it is not returned unchanged — the object-literal read reaches the
inherited truthy `Object.prototype.toString` and `translateStage`
returns that member. -/
theorem claim5_cex :
    ("toString" ∉ stages.map Prod.fst) ∧
    translateStage "toString" = JsRet.obj "toString" ∧
    translateStage "toString" ≠ JsRet.str "toString" := by
  refine ⟨by decide, by decide, by decide⟩

/-- Witness for C5: `valueOf` is an inherited `Object.prototype` key
and `translateStage` returns the inherited member on it. -/
theorem claim5_witness :
    ("valueOf" ∈ objectProtoKeys) ∧ translateStage "valueOf" = JsRet.obj "valueOf" :=
  ⟨by decide, claim5_translate_stage_total.2.1 "valueOf" (by decide)⟩

/-- C8: for a community-card list of at most five entries,
`renderCommunityCards` renders exactly five slots: the first
`cards.length` are face cards showing each card's rank and suit in
order, red exactly when the suit is ♥ or ♦, and the remaining slots are
placeholders. -/
theorem claim8_community_card_slots (cards : List Card) (hlen : cards.length ≤ 5) :
    (renderCommunityCards cards).length = 5 ∧
    (∀ (i : Nat) (h : i < cards.length),
        (renderCommunityCards cards)[i]? =
          some (SlotView.face (cards.get ⟨i, h⟩).rank (cards.get ⟨i, h⟩).suit
            (decide ((cards.get ⟨i, h⟩).suit = "♥" ∨ (cards.get ⟨i, h⟩).suit = "♦")))) ∧
    (∀ i : Nat, cards.length ≤ i → i < 5 →
        (renderCommunityCards cards)[i]? = some SlotView.placeholder) := by
  refine ⟨by simp [renderCommunityCards], ?_, ?_⟩
  · intro i h
    have hi5 : i < 5 := lt_of_lt_of_le h hlen
    simp [renderCommunityCards, List.getElem?_map, List.getElem?_range hi5, h,
      redFlag_eq]
  · intro i hge hi5
    have h' : ¬i < cards.length := by omega
    simp [renderCommunityCards, List.getElem?_map, List.getElem?_range hi5, h']

/-- A folded opponent with revealed-looking data, for the C2 witness. -/
def pFold : Player :=
  { name := "AI 1", chips := 100, cards := some [⟨"A", "♠"⟩, ⟨"K", "♠"⟩]
    bet := 0, current_bet := 0, is_human := false, is_dealer := false
    is_current := false, is_active := false, is_all_in := false
    last_action := some "fold" }

/-- C2: an opponent whose `is_active` flag is false or whose `cards`
field is absent is rendered by `renderOpponents` as exactly two hidden
card backs; with `is_active` false the card markup is independent of
the cards value (any two cards values give identical markup); and a
face-up small card appears in an opponent's box only when the cards
field is present and the player is active. -/
theorem claim2_opponent_card_privacy :
    (∀ (opps : List Player) (i : Nat) (p : Player),
        opps[i]? = some p → (p.is_active = false ∨ p.cards = none) →
        ((renderOpponents opps).items[i]?).map OpponentView.cardsView =
          some [SmallCardView.hidden, SmallCardView.hidden]) ∧
    (∀ c1 c2 : Option (List Card), renderSmallCards c1 true = renderSmallCards c2 true) ∧
    (∀ (opps : List Player) (i : Nat) (p : Player) (v : OpponentView)
        (r s : String) (red : Bool),
        opps[i]? = some p → (renderOpponents opps).items[i]? = some v →
        SmallCardView.face r s red ∈ v.cardsView →
        p.cards.isSome = true ∧ p.is_active = true) := by
  refine ⟨?_, ?_, ?_⟩
  · intro opps i p hp hcase
    simp [renderOpponents, renderOppItems_getElem?, hp, oppView]
    rcases hcase with h | h <;> simp [renderSmallCards, h]
  · intro c1 c2
    simp [renderSmallCards]
  · intro opps i p v r s red hp hv hmem
    rw [show (renderOpponents opps).items = renderOppItems opps.length 0 opps from rfl,
      renderOppItems_getElem?, hp] at hv
    have hveq : v = oppView opps.length (0 + i) p := by
      simpa using hv.symm
    subst hveq
    by_cases hc : (p.cards.isNone || !p.is_active) = true
    · rw [show (oppView opps.length (0 + i) p).cardsView
          = renderSmallCards p.cards (!p.is_active) from rfl,
        renderSmallCards, if_pos hc] at hmem
      simp at hmem
    · simp [Bool.or_eq_true] at hc
      obtain ⟨h1, h2⟩ := hc
      constructor
      · cases hop : p.cards with
        | none => rw [hop] at h1; simp at h1
        | some cs => simp
      · cases hact : p.is_active with
        | false => rw [hact] at h2; simp at h2
        | true => rfl

/-- Witness for C2: a concrete folded opponent holding A♠K♠ is rendered
as two hidden backs. -/
theorem claim2_witness :
    ([pFold][0]? = some pFold) ∧ pFold.is_active = false ∧
    ((renderOpponents [pFold]).items[0]?).map OpponentView.cardsView =
      some [SmallCardView.hidden, SmallCardView.hidden] :=
  ⟨rfl, rfl, claim2_opponent_card_privacy.1 [pFold] 0 pFold rfl (Or.inl rfl)⟩

/-- C3: `updateActions` enables exactly the buttons whose action name
appears in the available actions — each of the six buttons is disabled
iff its name is absent from `actions` — and for an available `call` or
`bet` the button label shows that action's amount. -/
theorem claim3_action_buttons (acts : List ActionOpt) (prev : ActionsUI) :
    (((updateActions acts prev).buttons "fold").disabled
        = !((acts.map ActionOpt.action).contains "fold")) ∧
    (((updateActions acts prev).buttons "check").disabled
        = !((acts.map ActionOpt.action).contains "check")) ∧
    (((updateActions acts prev).buttons "bet").disabled
        = !((acts.map ActionOpt.action).contains "bet")) ∧
    (((updateActions acts prev).buttons "call").disabled
        = !((acts.map ActionOpt.action).contains "call")) ∧
    (((updateActions acts prev).buttons "raise").disabled
        = !((acts.map ActionOpt.action).contains "raise")) ∧
    (((updateActions acts prev).buttons "all_in").disabled
        = !((acts.map ActionOpt.action).contains "all_in")) ∧
    (∀ e, acts.find? (fun x => x.action == "call") = some e →
        ((updateActions acts prev).buttons "call").label = "跟注 $" ++ toString e.amount) ∧
    (∀ e, acts.find? (fun x => x.action == "bet") = some e →
        ((updateActions acts prev).buttons "bet").label = "下注 $" ++ toString e.amount) := by
  refine ⟨?_, ?_, ?_, ?_, ?_, ?_, ?_, ?_⟩
  · simp [updateActions, buttonAfter, allActions, find?_action_isNone]
  · simp [updateActions, buttonAfter, allActions, find?_action_isNone]
  · simp [updateActions, buttonAfter, allActions, find?_action_isNone]
  · simp [updateActions, buttonAfter, allActions, find?_action_isNone]
  · simp [updateActions, buttonAfter, allActions, find?_action_isNone]
  · simp [updateActions, buttonAfter, allActions, find?_action_isNone]
  · intro e he; simp [updateActions, buttonAfter, allActions, he]
  · intro e he; simp [updateActions, buttonAfter, allActions, he]

/-- Actions available in the C3 witness run. -/
def actsW : List ActionOpt := [⟨"fold", 0⟩, ⟨"call", 20⟩, ⟨"raise", 50⟩]

/-- Witness for C3: with fold/call/raise available, the call button is
enabled and labelled with its amount while the check button is
disabled. -/
theorem claim3_witness :
    (actsW.find? (fun x => x.action == "call") = some ⟨"call", 20⟩) ∧
    ((updateActions actsW actionsInit).buttons "call").label = "跟注 $20" ∧
    ((updateActions actsW actionsInit).buttons "check").disabled = true := by
  refine ⟨rfl, ?_, ?_⟩
  · have h := (claim3_action_buttons actsW actionsInit).2.2.2.2.2.2.1 ⟨"call", 20⟩ rfl
    rw [h]; decide
  · have h := (claim3_action_buttons actsW actionsInit).2.1
    rw [h]; decide

/-- C4 (amended): `updateActions` sets the slider's minimum, initial
value and the displayed raise amount from the available `raise` action's
amount, else from the available `bet` action's amount, and otherwise
leaves them alone; the slider's maximum attribute is never modified (in
particular it is not set to the acting player's stack). -/
theorem claim4_slider_config (acts : List ActionOpt) (prev : ActionsUI) :
    ((updateActions acts prev).slider.max = prev.slider.max) ∧
    (∀ r, acts.find? (fun x => x.action == "raise") = some r →
        (updateActions acts prev).slider.min = r.amount ∧
        (updateActions acts prev).slider.value = r.amount ∧
        (updateActions acts prev).raiseAmountText = toString r.amount) ∧
    (acts.find? (fun x => x.action == "raise") = none →
      ∀ b, acts.find? (fun x => x.action == "bet") = some b →
        (updateActions acts prev).slider.min = b.amount ∧
        (updateActions acts prev).slider.value = b.amount ∧
        (updateActions acts prev).raiseAmountText = toString b.amount) ∧
    (acts.find? (fun x => x.action == "raise") = none →
      acts.find? (fun x => x.action == "bet") = none →
        (updateActions acts prev).slider = prev.slider ∧
        (updateActions acts prev).raiseAmountText = prev.raiseAmountText) := by
  refine ⟨?_, ?_, ?_, ?_⟩
  · cases hr : acts.find? fun x => x.action == "raise" with
    | some r => simp [updateActions, hr]
    | none =>
        cases hb : acts.find? fun x => x.action == "bet" with
        | some b => simp [updateActions, hr, hb]
        | none => simp [updateActions, hr, hb]
  · intro r hr
    simp [updateActions, hr]
  · intro hr b hb
    simp [updateActions, hr, hb]
  · intro hr hb
    simp [updateActions, hr, hb]

/-- Witness for C4: with only a bet of 10 available, the slider minimum
and value and the amount text become 10 and the maximum stays put. -/
theorem claim4_witness :
    (([⟨"bet", 10⟩] : List ActionOpt).find? (fun x => x.action == "raise") = none) ∧
    (([⟨"bet", 10⟩] : List ActionOpt).find? (fun x => x.action == "bet") = some ⟨"bet", 10⟩) ∧
    (updateActions [⟨"bet", 10⟩] actionsInit).slider.min = 10 ∧
    (updateActions [⟨"bet", 10⟩] actionsInit).slider.value = 10 ∧
    (updateActions [⟨"bet", 10⟩] actionsInit).raiseAmountText = "10" ∧
    (updateActions [⟨"bet", 10⟩] actionsInit).slider.max = actionsInit.slider.max := by
  have h := claim4_slider_config [⟨"bet", 10⟩] actionsInit
  have hs := h.2.2.1 rfl ⟨"bet", 10⟩ rfl
  exact ⟨rfl, rfl, hs.1, hs.2.1, hs.2.2, h.1⟩

/-- The acting (current) human player with a stack of 100 chips, for
the C4 counterexample. -/
def humanCur : Player :=
  { name := "玩家", chips := 100, cards := none, bet := 0, current_bet := 0
    is_human := true, is_dealer := false, is_current := true, is_active := true
    is_all_in := false, last_action := none }

/-- State for the C4 counterexample: a raise of minimum 50 is available
and the acting player's stack is 100. -/
def stC4 : StateDoc :=
  { stBase with players := [humanCur], available_actions := [⟨"raise", 50⟩] }

/-- Counterexample to C4 as stated: a raise with minimum 50 is
available and the acting player's stack is 100, yet after the update
the slider's maximum is still 0, not the stack — `updateActions` never
assigns the slider's `max`. -/
theorem claim4_cex :
    stC4.available_actions = [⟨"raise", 50⟩] ∧
    (stC4.players.find? fun p => p.is_current).map Player.chips = some 100 ∧
    (updateUI uiInit (some stC4)).1.actionsUI.slider.max = 0 ∧
    (updateUI uiInit (some stC4)).1.actionsUI.slider.max ≠ 100 := by
  refine ⟨rfl, rfl, ?_, ?_⟩
  · decide
  · decide

/-- C6: with no analysis object, `updateAnalysis` shows `--` for win
rate, pot odds and EV and empties the outs section; with one, it shows
`win_rate*100` and `pot_odds*100` to one decimal place followed by `%`,
shows the EV as `+$` and `ev` to zero decimals when `ev ≥ 0` and `-$`
and `|ev|` to zero decimals otherwise, and renders one outs row per
entry, in order, with the entry's name, count and `probability*100`. -/
theorem claim6_analysis_panel (prev : AnalysisView) (a : Analysis) :
    (updateAnalysis prev none =
      { prev with
        winRate := Txt.lit "--"
        potOdds := Txt.lit "--"
        evText := Txt.lit "--"
        outsHeader := false
        outsRows := [] }) ∧
    ((updateAnalysis prev (some a)).winRate
        = Txt.cat (Txt.toFixed (a.win_rate * 100) 1) (Txt.lit "%")) ∧
    ((updateAnalysis prev (some a)).potOdds
        = Txt.cat (Txt.toFixed (a.pot_odds * 100) 1) (Txt.lit "%")) ∧
    ((updateAnalysis prev (some a)).evText
        = if 0 ≤ a.ev then Txt.cat (Txt.lit "+$") (Txt.toFixed a.ev 0)
          else Txt.cat (Txt.lit "-$") (Txt.toFixed |a.ev| 0)) ∧
    ((updateAnalysis prev (some a)).outsRows
        = (a.outs.getD []).map fun o =>
            OutRowView.mk o.name o.count (Txt.toFixed (o.probability * 100) 0)) := by
  refine ⟨rfl, rfl, rfl, rfl, ?_⟩
  rcases ho : a.outs with _ | l
  · simp [updateAnalysis, ho]
  · cases l with
    | nil => simp [updateAnalysis, ho]
    | cons o rest => simp [updateAnalysis, ho, outsRowsOf_eq_map]

/-- C7: `updateAdvice` gives each of the six advice categories a
distinct label and a distinct CSS class, shows the reasoning verbatim
and one list item per teaching point in order, and resets the panel to
the waiting placeholder (empty reasoning, no points) when advice is
absent. -/
theorem claim7_advice_panel (prev : AdviceView) (adv : Advice) :
    (updateAdvice none prev =
      { actionText := "等待行動...", actionClass := "advice-action",
        reason := "", points := [] }) ∧
    ((updateAdvice (some adv) prev).actionClass = "advice-action " ++ adv.action) ∧
    ((updateAdvice (some adv) prev).reason = adv.reasoning) ∧
    ((updateAdvice (some adv) prev).points = adv.teaching_points.getD []) ∧
    ((updateAdvice (some ⟨"strong_bet", adv.reasoning, adv.teaching_points⟩) prev).actionText
        = "🔥 強烈建議加注") ∧
    ((updateAdvice (some ⟨"bet", adv.reasoning, adv.teaching_points⟩) prev).actionText
        = "↑ 建議加注") ∧
    ((updateAdvice (some ⟨"call", adv.reasoning, adv.teaching_points⟩) prev).actionText
        = "→ 建議跟注") ∧
    ((updateAdvice (some ⟨"check_call", adv.reasoning, adv.teaching_points⟩) prev).actionText
        = "→ 過牌/跟注") ∧
    ((updateAdvice (some ⟨"check_fold", adv.reasoning, adv.teaching_points⟩) prev).actionText
        = "↓ 過牌/棄牌") ∧
    ((updateAdvice (some ⟨"fold", adv.reasoning, adv.teaching_points⟩) prev).actionText
        = "✕ 建議棄牌") ∧
    ((["strong_bet", "bet", "call", "check_call", "check_fold", "fold"].map fun a =>
        (updateAdvice (some ⟨a, adv.reasoning, adv.teaching_points⟩) prev).actionText).Nodup) ∧
    ((["strong_bet", "bet", "call", "check_call", "check_fold", "fold"].map fun a =>
        (updateAdvice (some ⟨a, adv.reasoning, adv.teaching_points⟩) prev).actionClass).Nodup) := by
  refine ⟨rfl, rfl, ?_, ?_, rfl, rfl, rfl, rfl, rfl, rfl, ?_, ?_⟩
  · rfl
  · simp [updateAdvice, pointsOf_eq]
  · simp [updateAdvice, adviceLabelMap]
    try decide
  · simp [updateAdvice, adviceLabelMap]
    try decide

/-- Witness for C8: a two-card flop-prefix renders a red A♥ face, then
placeholders. -/
theorem claim8_witness :
    ([(⟨"A", "♥"⟩ : Card), ⟨"K", "♠"⟩].length ≤ 5) ∧
    (renderCommunityCards [⟨"A", "♥"⟩, ⟨"K", "♠"⟩])[0]? =
      some (SlotView.face "A" "♥" true) ∧
    (renderCommunityCards [⟨"A", "♥"⟩, ⟨"K", "♠"⟩])[4]? =
      some SlotView.placeholder := by
  refine ⟨by decide, ?_, ?_⟩
  · have h := (claim8_community_card_slots [⟨"A", "♥"⟩, ⟨"K", "♠"⟩] (by decide)).2.1
      0 (by decide)
    simpa using h
  · exact (claim8_community_card_slots [⟨"A", "♥"⟩, ⟨"K", "♠"⟩] (by decide)).2.2
      4 (by decide) (by decide)

/-- The pot text survives the whole display section unchanged after
being written. -/
theorem renderBody_potText (prev : UIState) (s : StateDoc) :
    (renderBody prev s).potText = "$" ++ toString (s.pot.getD 0) := by
  cases hr : s.hand_result with
  | none =>
      cases hh : s.players.find? fun p => p.is_human with
      | none => simp [renderBody, hr, hh]
      | some h => simp [renderBody, hr, hh]
  | some r =>
      cases hh : s.players.find? fun p => p.is_human with
      | none => simp [renderBody, hr, hh, showHandResult]
      | some h => simp [renderBody, hr, hh, showHandResult]

/-- C1 (amended): for a state whose error field is present and
nonempty, `updateUI` performs no display update at all — the result is
the previous page verbatim except for the alert/reload flags, which
fire exactly when the error text contains `No active game`. -/
theorem claim1_error_short_circuit (prev : UIState) (s : StateDoc) (e : String)
    (he : s.error = some e) (hne : e ≠ "") :
    updateUI prev (some s) =
      ({ prev with
         alerted := jsIncludes e "No active game"
         reloaded := jsIncludes e "No active game" }, false) := by
  have hb : (e == "") = false := beq_eq_false_iff_ne.mpr hne
  simp [updateUI, he, jsTruthyStr, hb]

/-- State whose error field holds the disconnect message. -/
def stErrNoActive : StateDoc := { stBase with error := some "No active game" }

/-- State whose error field is present but empty (falsy in JavaScript). -/
def stErrEmpty : StateDoc := { stBase with error := some "" }

/-- Witness for C1: a concrete `No active game` error leaves the page
untouched and fires the alert and the reload. -/
theorem claim1_witness :
    stErrNoActive.error = some "No active game" ∧
    ("No active game" : String) ≠ "" ∧
    updateUI uiInit (some stErrNoActive) =
      ({ uiInit with alerted := true, reloaded := true }, false) := by
  refine ⟨rfl, by decide, ?_⟩
  have h := claim1_error_short_circuit uiInit stErrNoActive "No active game" rfl (by decide)
  have hinc : jsIncludes "No active game" "No active game" = true := by decide
  rw [h, hinc]

/-- Counterexample to C1 as stated: a state document that contains an
`error` field holding the empty string (falsy in JavaScript) does not
short-circuit `updateUI` — the pot display changes from `$99` to `$7`. -/
theorem claim1_cex :
    stErrEmpty.error.isSome = true ∧
    uiInit.potText = "$99" ∧
    (updateUI uiInit (some stErrEmpty)).1.potText = "$7" ∧
    (updateUI uiInit (some stErrEmpty)).1.potText ≠ uiInit.potText := by
  refine ⟨rfl, rfl, by decide, by decide⟩

/-- C9: on an error-free game-over state, `updateUI` shows the
game-over modal with the message chosen by the chips of the `is_human`
player it finds, and does not throw; when no `is_human` entry exists
the unguarded `human.chips` access throws (the failure branch is
reachable). -/
theorem claim9_game_over_human (prev : UIState) (s : StateDoc)
    (herr : s.error = none) (hgo : s.is_game_over = true) :
    (∀ h, (s.players.find? fun p => p.is_human) = some h →
        (updateUI prev (some s)).2 = false ∧
        (updateUI prev (some s)).1.gameoverShown = true ∧
        (updateUI prev (some s)).1.gameoverMsg =
          (if h.chips ≤ 0 then "你的籌碼已用完！繼續練習，你一定會進步的！"
           else "🎉 恭喜！你擊敗了所有對手！")) ∧
    ((s.players.find? fun p => p.is_human) = none →
        (updateUI prev (some s)).2 = true) := by
  have hcond : jsTruthyStr s.error = false := by simp [jsTruthyStr, herr]
  constructor
  · intro h hfind
    simp [updateUI, hcond, hgo, hfind, showGameOver]
  · intro hfind
    simp [updateUI, hcond, hgo, hfind]

/-- A broke human player, for the C9 witness. -/
def pHumanBroke : Player :=
  { name := "玩家", chips := 0, cards := none, bet := 0, current_bet := 0
    is_human := true, is_dealer := false, is_current := false, is_active := true
    is_all_in := false, last_action := none }

/-- Game-over state with a broke human. -/
def stGO : StateDoc := { stBase with is_game_over := true, players := [pHumanBroke] }

/-- Game-over state with no `is_human` entry at all. -/
def stGOnoHuman : StateDoc := { stBase with is_game_over := true, players := [] }

/-- Witness for C9: with a broke human the modal shows the bust
message without throwing; with no human entry the update throws. -/
theorem claim9_witness :
    stGO.error = none ∧ stGO.is_game_over = true ∧
    ((stGO.players.find? fun p => p.is_human) = some pHumanBroke) ∧
    (updateUI uiInit (some stGO)).2 = false ∧
    (updateUI uiInit (some stGO)).1.gameoverShown = true ∧
    (updateUI uiInit (some stGO)).1.gameoverMsg =
      "你的籌碼已用完！繼續練習，你一定會進步的！" ∧
    ((stGOnoHuman.players.find? fun p => p.is_human) = none) ∧
    (updateUI uiInit (some stGOnoHuman)).2 = true := by
  have h := (claim9_game_over_human uiInit stGO rfl rfl).1 pHumanBroke rfl
  have h2 := (claim9_game_over_human uiInit stGOnoHuman rfl rfl).2 rfl
  refine ⟨rfl, rfl, rfl, h.1, h.2.1, ?_, rfl, h2⟩
  rw [h.2.2]
  decide

/-- C10: on every error-free state, `updateUI` renders the pot as `$`
followed by the pot value, defaulting to 0 when the field is absent, so
a missing pot renders `$0` (never a literal `undefined`/`null`). -/
theorem claim10_pot_default (prev : UIState) (s : StateDoc)
    (herr : s.error = none) :
    (updateUI prev (some s)).1.potText = "$" ++ toString (s.pot.getD 0) ∧
    (s.pot = none → (updateUI prev (some s)).1.potText = "$0") := by
  have hcond : jsTruthyStr s.error = false := by simp [jsTruthyStr, herr]
  have h1 : (updateUI prev (some s)).1.potText = (renderBody prev s).potText := by
    by_cases hgo : s.is_game_over
    · cases hh : s.players.find? fun p => p.is_human with
      | none => simp [updateUI, hcond, hgo, hh]
      | some h => simp [updateUI, hcond, hgo, hh, showGameOver]
    · simp [updateUI, hcond, hgo]
  rw [h1, renderBody_potText]
  refine ⟨rfl, ?_⟩
  intro hp
  rw [hp]
  rfl

/-- Error-free state with the pot field absent. -/
def stPotNone : StateDoc := { stBase with pot := none }

/-- Witness for C10: a state with no pot field renders `$0`. -/
theorem claim10_witness :
    stPotNone.error = none ∧ stPotNone.pot = none ∧
    (updateUI uiInit (some stPotNone)).1.potText = "$0" :=
  ⟨rfl, rfl, (claim10_pot_default uiInit stPotNone rfl).2 rfl⟩

end Poker
